import Mathlib

/-!
Shallow embedding of the eval-master task/record/evaluation core:
the task model and validator (`src/pages/CreateTask.tsx`), the
persistence store (`src/services/storageService.ts`), the evaluation
session (`EvaluationWorkspace`), the progress computations, and the
CSV export encoder (`src/pages/Results.tsx`), together with theorems
settling the frozen claims about them.
-/

set_option autoImplicit false

namespace EvalMaster

/-! ## JSON-like values

Imported records carry arbitrary JSON payloads.  Numbers are modelled
as integers (every numeric value exercised by the claims is integral;
JavaScript float printing is otherwise out of scope). `undefined` is
modelled as absence (`Option`), `null` as the `null` constructor. -/

inductive JsVal where
  | null
  | bool (b : Bool)
  | num (n : Int)
  | str (s : String)
  | arr (elems : List JsVal)
  | obj (fields : List (String × JsVal))

mutual

/-- JavaScript `String(v)`: arrays stringify as their comma-joined
elements (with `null` elements rendered empty), objects as
`[object Object]`. -/
def jsString : JsVal → String
  | JsVal.null => "null"
  | JsVal.bool true => "true"
  | JsVal.bool false => "false"
  | JsVal.num n => toString n
  | JsVal.str s => s
  | JsVal.obj _ => "[object Object]"
  | JsVal.arr xs => String.intercalate (",") (jsStringElems xs)

/-- Element strings for `Array.prototype.toString`. -/
def jsStringElems : List JsVal → List String
  | [] => []
  | JsVal.null :: vs => "" :: jsStringElems vs
  | v :: vs => jsString v :: jsStringElems vs

end

/-- Double every double quote in a string: the body of
`str.replace(/"/g, '""')` from `formatForCsv`, at character level. -/
def csvEscapeChars : List Char → List Char
  | [] => []
  | c :: cs =>
      if c = '"' then '"' :: '"' :: csvEscapeChars cs
      else c :: csvEscapeChars cs

/-- `str.replace(/"/g, '""')`. -/
def csvEscape (s : String) : String :=
  String.mk (csvEscapeChars s.data)

/-- JSON string-body escaping used by `JSON.stringify` (quote,
backslash and the common control characters). -/
def jsonEscapeChars : List Char → List Char
  | [] => []
  | c :: cs =>
      (if c = '\\' then ['\\', '\\']
       else if c = '"' then ['\\', '"']
       else if c = '\n' then ['\\', 'n']
       else if c = '\t' then ['\\', 't']
       else if c = '\r' then ['\\', 'r']
       else [c]) ++ jsonEscapeChars cs

/-- A JSON string literal. -/
def jsonQuote (s : String) : String :=
  "\"" ++ String.mk (jsonEscapeChars s.data) ++ "\""

mutual

/-- `JSON.stringify(v)` (canonical JSON text). -/
def jsonStringify : JsVal → String
  | JsVal.null => "null"
  | JsVal.bool true => "true"
  | JsVal.bool false => "false"
  | JsVal.num n => toString n
  | JsVal.str s => jsonQuote s
  | JsVal.arr xs => "[" ++ String.intercalate (",") (jsonStringifyElems xs) ++ "]"
  | JsVal.obj fs =>
      "\x7b" ++ String.intercalate (",") (jsonStringifyFields fs) ++ "\x7d"

/-- Serialized array elements. -/
def jsonStringifyElems : List JsVal → List String
  | [] => []
  | v :: vs => jsonStringify v :: jsonStringifyElems vs

/-- Serialized `key:value` object members. -/
def jsonStringifyFields : List (String × JsVal) → List String
  | [] => []
  | (k, v) :: fs => (jsonQuote k ++ ":" ++ jsonStringify v) :: jsonStringifyFields fs

end

/-! ## String-keyed association maps

JavaScript objects used as maps (`record.data`, the evaluation maps,
the map-of-maps in storage) are modelled as association lists with
the usual first-match lookup, replace-or-append assignment and key
deletion. -/

/-- `m[k]`: first entry with the given key. -/
def getKey {α : Type} : List (String × α) → String → Option α
  | [], _ => none
  | (k', v) :: rest, k => if k' = k then some v else getKey rest k

/-- `m[k] = v`: replace the entry in place if the key is present,
otherwise append it. -/
def setKey {α : Type} : List (String × α) → String → α → List (String × α)
  | [], k, v => [(k, v)]
  | (k', v') :: rest, k, v =>
      if k' = k then (k, v) :: rest else (k', v') :: setKey rest k v

/-- `delete m[k]`. -/
def delKey {α : Type} : List (String × α) → String → List (String × α)
  | [], _ => []
  | (k', v) :: rest, k =>
      if k' = k then delKey rest k else (k', v) :: delKey rest k

/-! ## Data model -/

inductive TaskMode where
  | scoring
  | comparison
deriving DecidableEq, BEq

inductive FieldRole where
  | context
  | target
  | modelA
  | modelB
  | ignore
deriving DecidableEq, BEq

structure FieldMapping where
  key : String
  role : FieldRole
  label : String
deriving DecidableEq

structure Dimension where
  id : String
  name : String
  description : String
  min : ℚ
  max : ℚ
  step : ℚ
deriving DecidableEq

structure TaskRecord where
  id : String
  data : List (String × JsVal)

structure Task where
  id : String
  title : String
  description : String
  mode : TaskMode
  createdAt : Nat
  fields : List FieldMapping
  dimensions : Option (List Dimension)
  records : List TaskRecord

inductive ComparisonChoice where
  | left
  | right
  | tie
deriving DecidableEq

structure EvaluationResult where
  taskId : String
  recordId : String
  scores : Option (List (String × ℚ))
  comparisonSelection : Option ComparisonChoice
  comment : String
  updatedAt : Nat
deriving DecidableEq

/-- Map from record id to its evaluation, scoped to one task. -/
abbrev EvaluationMap : Type := List (String × EvaluationResult)

/-! ## Persistence store (`src/services/storageService.ts`)

A `localStorage` slot either holds no backing data, holds a blob that
fails to decode, or decodes to a value; the first two cases are the
`catch`/missing branches of the service's `try` blocks. -/

inductive Slot (α : Type) where
  | missing
  | corrupt
  | value (a : α)

structure Store where
  tasksSlot : Slot (List Task)
  evalsSlot : Slot (List (String × EvaluationMap))

/-- `storageService.getTasks`: decode failure or missing data degrades
to the empty list (the `catch` branch); never throws. -/
def getTasks (s : Store) : List Task :=
  match s.tasksSlot with
  | Slot.value ts => ts
  | _ => []

/-- `storageService.saveTask`: read-modify-write append. -/
def saveTask (s : Store) (t : Task) : Store :=
  { s with tasksSlot := Slot.value (getTasks s ++ [t]) }

/-- `storageService.getAllEvaluations`: decode failure or missing data
degrades to the empty map. -/
def getAllEvaluations (s : Store) : List (String × EvaluationMap) :=
  match s.evalsSlot with
  | Slot.value m => m
  | _ => []

/-- `storageService.getEvaluations`: `all[taskId] || {}`. -/
def getEvaluations (s : Store) (taskId : String) : EvaluationMap :=
  (getKey (getAllEvaluations s) taskId).getD []

/-- `storageService.saveEvaluation`: upsert the single entry keyed by
`result.recordId` inside `taskId`'s map and write everything back. -/
def saveEvaluation (s : Store) (taskId : String) (result : EvaluationResult) : Store :=
  let all := getAllEvaluations s
  let current := (getKey all taskId).getD []
  { s with evalsSlot := Slot.value (setKey all taskId (setKey current result.recordId result)) }

/-- `storageService.deleteTask`: drop the task from the task list and
delete its evaluation-map entry. -/
def deleteTask (s : Store) (taskId : String) : Store :=
  { s with
    tasksSlot := Slot.value ((getTasks s).filter fun t => !(t.id == taskId)),
    evalsSlot := Slot.value (delKey (getAllEvaluations s) taskId) }

/-! ## Task creation (`src/pages/CreateTask.tsx`) -/

/-- JavaScript whitespace test for `String.prototype.trim` (the
whitespace classes relevant here). -/
def isJsWhitespace (c : Char) : Bool :=
  c = ' ' || c = '\t' || c = '\n' || c = '\r'

/-- `title.trim()`. -/
def trimChars (s : String) : String :=
  String.mk ((((s.data.dropWhile isJsWhitespace).reverse).dropWhile isJsWhitespace).reverse)

/-- The string-form id of an imported object's `id` property, when
that property is present and not `null` (`item.id != null` in the
source also rejects `null`). -/
def presentId (item : List (String × JsVal)) : Option String :=
  match getKey item ("id") with
  | none => none
  | some JsVal.null => none
  | some v => some (jsString v)

/-- Record identifier for the item at position `i` of the imported
array: `item.id != null ? String(item.id) : generateId()`.  The
source's `generateId` draws from `Math.random()`; it is modelled as an
explicit supply `fresh` of synthesized identifiers, indexed by the
item's position. -/
def derivedId (fresh : Nat → String) (i : Nat) (item : List (String × JsVal)) : String :=
  (presentId item).getD (fresh i)

/-- The `json.map(item => ({id: ..., data: item}))` normalization from
`handleFileUpload`, with the running item index made explicit. -/
def normalizeFrom (fresh : Nat → String) : Nat → List (List (String × JsVal)) → List TaskRecord
  | _, [] => []
  | i, item :: rest =>
      { id := derivedId fresh i item, data := item } :: normalizeFrom fresh (i + 1) rest

/-- Records produced from a valid imported JSON array of objects. -/
def normalizeRecords (items : List (List (String × JsVal))) (fresh : Nat → String) :
    List TaskRecord :=
  normalizeFrom fresh 0 items

/-- `handleCreateTask`: validates the title, then (Comparison mode
only) the presence of both model mappings, then assembles the Task —
`fields` drops `ignore` mappings, `dimensions` is populated only in
Scoring mode — and writes it through `saveTask`.  An error outcome
leaves the store untouched; the result carries the created task and
the updated store. -/
def handleCreateTask (title description : String) (mode : TaskMode)
    (fieldMappings : List FieldMapping) (dimensions : List Dimension)
    (rawRecords : List TaskRecord) (newId : String) (now : Nat) (store : Store) :
    Except String (Task × Store) :=
  if trimChars title = "" then
    Except.error ("Task title is required")
  else
    let mappingsOk : Bool :=
      match mode with
      | TaskMode.comparison =>
          (fieldMappings.any fun f => f.role == FieldRole.modelA)
            && (fieldMappings.any fun f => f.role == FieldRole.modelB)
      | TaskMode.scoring => true
    if mappingsOk then
      let task : Task :=
        { id := newId
          title := title
          description := description
          mode := mode
          createdAt := now
          fields := fieldMappings.filter fun f => !(f.role == FieldRole.ignore)
          dimensions := match mode with
            | TaskMode.scoring => some dimensions
            | TaskMode.comparison => none
          records := rawRecords }
      Except.ok (task, saveTask store task)
    else
      Except.error ("For comparison mode, you must map at least Model A and Model B fields.")

/-! ## Evaluation session (`EvaluationWorkspace`) -/

structure SessionState where
  task : Task
  currentIndex : Nat
  currentResult : Option EvaluationResult
  savedEvaluations : EvaluationMap
  isSaved : Bool

/-- `records.findIndex(r => !evals[r.id])`: position of the first
record with no saved evaluation (`none` when every record has one,
the source's `-1`). -/
def findIndexAbsent (evals : EvaluationMap) : List TaskRecord → Option Nat
  | [] => none
  | r :: rest =>
      if getKey evals r.id = none then some 0
      else (findIndexAbsent evals rest).map (· + 1)

/-- Resume-point selection on loading a task: the first unevaluated
record's index, or the initial index 0 when the find comes back
`-1`. -/
def initialIndex (records : List TaskRecord) (evals : EvaluationMap) : Nat :=
  (findIndexAbsent evals records).getD 0

/-- `handleSave`: writes `{...currentResult, updatedAt: now}` through
`storageService.saveEvaluation`, merges `currentResult` itself into
the local `savedEvaluations` map, and sets `isSaved`.  A session
without a loaded draft returns unchanged. -/
def handleSave (st : SessionState) (store : Store) (now : Nat) : SessionState × Store :=
  match st.currentResult with
  | none => (st, store)
  | some draft =>
      ({ st with
          savedEvaluations := setKey st.savedEvaluations draft.recordId draft
          isSaved := true },
        saveEvaluation store st.task.id { draft with updatedAt := now })

/-! ## Progress -/

/-- Dashboard card percent:
`total > 0 ? Math.round((completed / total) * 100) : 0`. -/
def dashboardPercent (completed total : Nat) : Int :=
  if 0 < total then round (((completed : ℚ) / total) * 100) else 0

/-- Workspace header progress:
`Math.round((Object.keys(savedEvaluations).length / task.records.length) * 100)`.
There is no empty-task guard in the source: dividing by a record count
of zero produces `NaN` (or `Infinity`), a non-numeric percent modelled
here as `none`. -/
def workspaceProgress (completed total : Nat) : Option Int :=
  if total = 0 then none else some (round (((completed : ℚ) / total) * 100))

/-! ## CSV export (`src/pages/Results.tsx`) -/

/-- `formatForCsv(val)`: `null`/`undefined` come back as the bare
empty string; any other value's text (canonical JSON for objects and
arrays, JavaScript string form otherwise) is wrapped in double quotes
with embedded double quotes doubled. -/
def formatForCsv : Option JsVal → String
  | none => ""
  | some JsVal.null => ""
  | some (JsVal.obj fs) => "\"" ++ csvEscape (jsonStringify (JsVal.obj fs)) ++ "\""
  | some (JsVal.arr xs) => "\"" ++ csvEscape (jsonStringify (JsVal.arr xs)) ++ "\""
  | some v => "\"" ++ csvEscape (jsString v) ++ "\""

/-- The cell text demanded by the spec's encoding rule:
`null`/`undefined` render empty, objects and arrays as their canonical
JSON text, all other values as their string form. -/
def specCellText : Option JsVal → String
  | none => ""
  | some JsVal.null => ""
  | some (JsVal.obj fs) => jsonStringify (JsVal.obj fs)
  | some (JsVal.arr xs) => jsonStringify (JsVal.arr xs)
  | some v => jsString v

/-- The spec's cell encoding rule, stated as written: the cell text is
always wrapped in double quotes with embedded double quotes doubled.
Declared for comparison against the source's `formatForCsv`. -/
def specCellEncode (v : Option JsVal) : String :=
  "\"" ++ csvEscape (specCellText v) ++ "\""

/-- JavaScript rendering of a numeric score when a row is joined
(integral values print exactly; non-integral rationals fall back to
the fraction form, never exercised by the claims). -/
def jsNumToString (q : ℚ) : String :=
  if q.den = 1 then toString q.num else toString q

/-- A score cell: `result?.scores?.[d.id] || ''` — missing result,
missing scores map, missing entry, and a score of `0` (falsy) all
render empty; otherwise the raw number, unquoted. -/
def scoreCell (result : Option EvaluationResult) (d : Dimension) : String :=
  match result with
  | none => ""
  | some r =>
      match r.scores with
      | none => ""
      | some sc =>
          match getKey sc d.id with
          | none => ""
          | some q => if q = 0 then "" else jsNumToString q

/-- The Selection cell: `result?.comparisonSelection || 'Pending'`. -/
def selectionCell (result : Option EvaluationResult) : String :=
  match result with
  | none => "Pending"
  | some r =>
      match r.comparisonSelection with
      | none => "Pending"
      | some ComparisonChoice.left => "left"
      | some ComparisonChoice.right => "right"
      | some ComparisonChoice.tie => "tie"

/-- The Comments cell: `formatForCsv(result?.comment || '')`. -/
def commentCell (result : Option EvaluationResult) : String :=
  formatForCsv (some (JsVal.str ((result.map EvaluationResult.comment).getD "")))

/-- Left-pad a decimal rendering with zeroes. -/
def padZero (width : Nat) (n : Nat) : String :=
  let s := toString n
  String.mk (List.replicate (width - s.length) '0' ++ s.data)

/-- `new Date(ms).toISOString()` for a non-negative millisecond epoch
timestamp (civil-from-days conversion for the proleptic Gregorian
calendar). -/
def isoOfMs (ms : Nat) : String :=
  let totalSecs := ms / 1000
  let days := totalSecs / 86400
  let z := days + 719468
  let era := z / 146097
  let doe := z % 146097
  let yoe := (doe - doe / 1460 + doe / 36524 - doe / 146096) / 365
  let doy := doe - (365 * yoe + yoe / 4 - yoe / 100)
  let mp := (5 * doy + 2) / 153
  let d := doy - (153 * mp + 2) / 5 + 1
  let mon := if mp < 10 then mp + 3 else mp - 9
  let year := (if mon ≤ 2 then yoe + 1 else yoe) + era * 400
  padZero 4 year ++ "-" ++ padZero 2 mon ++ "-" ++ padZero 2 d ++ "T" ++
    padZero 2 (totalSecs / 3600 % 24) ++ ":" ++ padZero 2 (totalSecs / 60 % 60) ++ ":" ++
    padZero 2 (totalSecs % 60) ++ "." ++ padZero 3 (ms % 1000) ++ "Z"

/-- The Timestamp cell:
`result?.updatedAt ? new Date(result.updatedAt).toISOString() : ''`
(an `updatedAt` of `0` is falsy and renders empty). -/
def timestampCell (result : Option EvaluationResult) : String :=
  match result with
  | none => ""
  | some r => if r.updatedAt = 0 then "" else isoOfMs r.updatedAt

/-- The task's context-role fields, in field-list order. -/
def contextFields (task : Task) : List FieldMapping :=
  task.fields.filter fun f => f.role == FieldRole.context

/-- Scoring target cell input:
`targetKey ? record.data[targetKey] : ''`. -/
def targetValue (task : Task) (record : TaskRecord) : Option JsVal :=
  match (task.fields.find? fun f => f.role == FieldRole.target) with
  | some f => getKey record.data f.key
  | none => some (JsVal.str "")

/-- Comparison model cell input for the given role. -/
def modelValue (task : Task) (role : FieldRole) (record : TaskRecord) : Option JsVal :=
  match (task.fields.find? fun f => f.role == role) with
  | some f => getKey record.data f.key
  | none => some (JsVal.str "")

/-- The header row from `handleExport`: `Record ID`, one
`Context: <label>` per context field, then the mode-specific columns,
then `Comments`, `Timestamp`. -/
def exportHeaders (task : Task) : List String :=
  ["Record ID"]
    ++ (contextFields task).map (fun f => "Context: " ++ f.label)
    ++ (match task.mode with
        | TaskMode.scoring =>
            ("Target: " ++
              (((task.fields.find? fun f => f.role == FieldRole.target).map
                  FieldMapping.label).getD "Target"))
              :: (task.dimensions.getD []).map (fun d => "Score: " ++ d.name)
        | TaskMode.comparison => ["Model A", "Model B", "Selection"])
    ++ ["Comments", "Timestamp"]

/-- The mode-specific cells of a data row: Scoring pushes the
formatted target value then one raw score cell per dimension;
Comparison pushes the two formatted model values then the raw
Selection cell. -/
def modeCells (task : Task) (evals : EvaluationMap) (record : TaskRecord) : List String :=
  match task.mode with
  | TaskMode.scoring =>
      formatForCsv (targetValue task record)
        :: (task.dimensions.getD []).map (scoreCell (getKey evals record.id))
  | TaskMode.comparison =>
      [formatForCsv (modelValue task FieldRole.modelA record),
       formatForCsv (modelValue task FieldRole.modelB record),
       selectionCell (getKey evals record.id)]

/-- One data row from `handleExport`.  The Record ID cell is the raw
record id (not passed through `formatForCsv`); context, target and
model cells go through `formatForCsv`; score, Selection and Timestamp
cells are rendered raw. -/
def exportRow (task : Task) (evals : EvaluationMap) (record : TaskRecord) : List String :=
  [record.id]
    ++ ((contextFields task).map (fun f => formatForCsv (getKey record.data f.key))
      ++ (modeCells task evals record
        ++ [commentCell (getKey evals record.id), timestampCell (getKey evals record.id)]))

/-- All rows of the export: the header row, then one data row per
record, in record order. -/
def exportRows (task : Task) (evals : EvaluationMap) : List (List String) :=
  exportHeaders task :: task.records.map (exportRow task evals)

/-- The full CSV document: comma-joined cells, newline-joined rows. -/
def exportCsv (task : Task) (evals : EvaluationMap) : String :=
  String.intercalate ("\n") ((exportRows task evals).map (String.intercalate (",")))

/-! ## The spec's Scoring scenario

Import `[{"id":"1","prompt":"Q","response":"A"}]`, map `prompt` to
context and `response` to target, define one Dimension `Quality` with
bounds 0 and 5, and save score 4 for record `"1"`. -/

/-- The `Quality` dimension of the Scoring scenario (step is the
creation default 0.5). -/
def qualityDim : Dimension :=
  { id := "dq", name := "Quality", description := "", min := 0, max := 5, step := 1/2 }

/-- The single imported record of the Scoring scenario. -/
def scenRecord : TaskRecord :=
  { id := "1"
    data := [("id", JsVal.str "1"), ("prompt", JsVal.str "Q"), ("response", JsVal.str "A")] }

/-- The Scoring-scenario task (`id` mapped to `ignore` is dropped from
`fields` at creation). -/
def scenTask : Task :=
  { id := "t1"
    title := "Scenario"
    description := ""
    mode := TaskMode.scoring
    createdAt := 0
    fields := [{ key := "prompt", role := FieldRole.context, label := "Prompt" },
               { key := "response", role := FieldRole.target, label := "Response" }]
    dimensions := some [qualityDim]
    records := [scenRecord] }

/-- The saved score-4 evaluation for record `"1"`. -/
def scenResult : EvaluationResult :=
  { taskId := "t1", recordId := "1", scores := some [("dq", 4)]
    comparisonSelection := none, comment := "", updatedAt := 1000 }

/-- The scenario's evaluation map after the save. -/
def scenEvals : EvaluationMap := [("1", scenResult)]

/-! ## Association-map lemmas -/

theorem getKey_setKey_self {α : Type} (l : List (String × α)) (k : String) (v : α) :
    getKey (setKey l k v) k = some v := by
  induction l with
  | nil => simp [setKey, getKey]
  | cons p rest ih =>
      obtain ⟨k', v'⟩ := p
      by_cases h : k' = k
      · simp [setKey, h, getKey]
      · simp [setKey, h, getKey, ih]

theorem getKey_setKey_ne {α : Type} (l : List (String × α)) (k k' : String) (v : α)
    (h : k' ≠ k) : getKey (setKey l k v) k' = getKey l k' := by
  induction l with
  | nil => simp [setKey, getKey, Ne.symm h]
  | cons p rest ih =>
      obtain ⟨k₀, v₀⟩ := p
      by_cases h₀ : k₀ = k
      · subst h₀
        simp [setKey, getKey, Ne.symm h]
      · simp [setKey, h₀, getKey, ih]

theorem getKey_delKey_self {α : Type} (l : List (String × α)) (k : String) :
    getKey (delKey l k) k = none := by
  induction l with
  | nil => simp [delKey, getKey]
  | cons p rest ih =>
      obtain ⟨k', v⟩ := p
      by_cases h : k' = k
      · simp [delKey, h, ih]
      · simp [delKey, h, getKey, ih]

/-! ## Store lemmas -/

theorem getTasks_saveEvaluation (s : Store) (tid : String) (res : EvaluationResult) :
    getTasks (saveEvaluation s tid res) = getTasks s := rfl

theorem getEvaluations_saveEvaluation_self (s : Store) (tid : String)
    (res : EvaluationResult) :
    getEvaluations (saveEvaluation s tid res) tid
      = setKey (getEvaluations s tid) res.recordId res := by
  simp [getEvaluations, saveEvaluation, getAllEvaluations, getKey_setKey_self]

theorem getEvaluations_saveEvaluation_ne (s : Store) (tid tid' : String)
    (res : EvaluationResult) (h : tid' ≠ tid) :
    getEvaluations (saveEvaluation s tid res) tid' = getEvaluations s tid' := by
  simp [getEvaluations, saveEvaluation, getAllEvaluations, getKey_setKey_ne _ _ _ _ h]

/-! ## Claims about the persistence store -/

/-- Claim C6: a read of the task list or of a task's evaluation map
whose backing serialized collection is missing or fails to decode
returns the empty collection; the store never throws on read (both
readers are total functions whose non-`value` branches yield the
empty collection). -/
theorem read_failure_yields_empty (s : Store) (tid : String)
    (ht : s.tasksSlot = Slot.missing ∨ s.tasksSlot = Slot.corrupt)
    (he : s.evalsSlot = Slot.missing ∨ s.evalsSlot = Slot.corrupt) :
    getTasks s = [] ∧ getEvaluations s tid = [] := by
  constructor
  · rcases ht with h | h <;> simp [getTasks, h]
  · rcases he with h | h <;> simp [getEvaluations, getAllEvaluations, h, getKey]

theorem read_failure_yields_empty_witness :
    getTasks { tasksSlot := Slot.corrupt, evalsSlot := Slot.missing } = []
    ∧ getEvaluations { tasksSlot := Slot.corrupt, evalsSlot := Slot.missing } ("t1") = [] :=
  read_failure_yields_empty _ _ (Or.inr rfl) (Or.inl rfl)

/-- Claim C7: `deleteTask` removes the task from the stored task list
(keeping every other task) and removes the task's entire evaluation
map, so a subsequent `getEvaluations` for that identifier returns the
empty map. -/
theorem delete_task_cascades (s : Store) (tid : String) :
    (∀ t ∈ getTasks (deleteTask s tid), t.id ≠ tid)
    ∧ (∀ t ∈ getTasks s, t.id ≠ tid → t ∈ getTasks (deleteTask s tid))
    ∧ getKey (getAllEvaluations (deleteTask s tid)) tid = none
    ∧ getEvaluations (deleteTask s tid) tid = [] := by
  refine ⟨?_, ?_, ?_, ?_⟩
  · intro t ht
    simp only [deleteTask, getTasks, List.mem_filter, Bool.not_eq_eq_eq_not,
      Bool.not_true] at ht
    simpa [bne_iff_ne] using ht.2
  · intro t ht hne
    simp only [deleteTask, getTasks, List.mem_filter]
    exact ⟨ht, by simp [bne_iff_ne, hne]⟩
  · simpa [deleteTask, getAllEvaluations] using getKey_delKey_self (getAllEvaluations s) tid
  · simp [getEvaluations, deleteTask, getAllEvaluations, getKey_delKey_self]

/-! Concrete store fixture used by the store witnesses. -/

/-- A stored scoring task with id `T1`. -/
def wTask1 : Task :=
  { id := "T1", title := "first", description := "", mode := TaskMode.scoring,
    createdAt := 0, fields := [], dimensions := some [], records := [] }

/-- A second stored task with id `T2`. -/
def wTask2 : Task :=
  { id := "T2", title := "second", description := "", mode := TaskMode.comparison,
    createdAt := 1, fields := [], dimensions := none, records := [] }

/-- An evaluation for record `r1` of task `T1`. -/
def wRes1 : EvaluationResult :=
  { taskId := "T1", recordId := "r1", scores := none, comparisonSelection := none,
    comment := "", updatedAt := 5 }

/-- An evaluation for record `r2` of task `T1`. -/
def wRes2 : EvaluationResult :=
  { taskId := "T1", recordId := "r2", scores := none,
    comparisonSelection := some ComparisonChoice.tie, comment := "ok", updatedAt := 7 }

/-- A store holding both tasks and one saved evaluation. -/
def wStore : Store :=
  { tasksSlot := Slot.value [wTask1, wTask2],
    evalsSlot := Slot.value [("T1", [("r1", wRes1)]), ("T2", [])] }

theorem delete_task_cascades_witness :
    wTask2 ∈ getTasks (deleteTask wStore ("T1"))
    ∧ getEvaluations (deleteTask wStore ("T1")) ("T1") = [] := by
  have h := delete_task_cascades wStore ("T1")
  refine ⟨h.2.1 wTask2 ?_ ?_, h.2.2.2⟩
  · show wTask2 ∈ getTasks wStore
    simp [getTasks, wStore]
  · show wTask2.id ≠ "T1"
    decide

/-- Claim C10: `saveEvaluation taskId result` leaves the stored task
list unchanged, leaves every other task's evaluation map unchanged,
and within `taskId`'s map leaves every other record's entry
unchanged; the single entry keyed by `result.recordId` is created or
replaced with `result`. -/
theorem save_evaluation_frame (s : Store) (tid : String) (res : EvaluationResult) :
    getTasks (saveEvaluation s tid res) = getTasks s
    ∧ (∀ tid', tid' ≠ tid →
        getEvaluations (saveEvaluation s tid res) tid' = getEvaluations s tid')
    ∧ (∀ rid, rid ≠ res.recordId →
        getKey (getEvaluations (saveEvaluation s tid res) tid) rid
          = getKey (getEvaluations s tid) rid)
    ∧ getKey (getEvaluations (saveEvaluation s tid res) tid) res.recordId = some res := by
  refine ⟨rfl, ?_, ?_, ?_⟩
  · intro tid' h
    exact getEvaluations_saveEvaluation_ne s tid tid' res h
  · intro rid h
    rw [getEvaluations_saveEvaluation_self, getKey_setKey_ne _ _ _ _ h]
  · rw [getEvaluations_saveEvaluation_self, getKey_setKey_self]

theorem save_evaluation_frame_witness :
    getEvaluations (saveEvaluation wStore ("T1") wRes2) ("T2") = getEvaluations wStore ("T2")
    ∧ getKey (getEvaluations (saveEvaluation wStore ("T1") wRes2) ("T1")) ("r1")
        = getKey (getEvaluations wStore ("T1")) ("r1")
    ∧ getKey (getEvaluations (saveEvaluation wStore ("T1") wRes2) ("T1")) ("r2")
        = some wRes2 := by
  have h := save_evaluation_frame wStore ("T1") wRes2
  exact ⟨h.2.1 ("T2") (by decide), h.2.2.1 ("r1") (by decide), h.2.2.2⟩

/-! ## Claims about the evaluation session -/

/-- The session draft used by the save fixtures, last saved at time 5. -/
def c5Draft : EvaluationResult :=
  { taskId := "T1", recordId := "r1", scores := none, comparisonSelection := none,
    comment := "", updatedAt := 5 }

/-- A session on task `T1` with the draft loaded. -/
def c5State : SessionState :=
  { task := wTask1, currentIndex := 0, currentResult := some c5Draft,
    savedEvaluations := [], isSaved := false }

/-- A store holding task `T1` and no evaluations. -/
def c5Store : Store :=
  { tasksSlot := Slot.value [wTask1], evalsSlot := Slot.value [] }

/-- Claim C5 counterexample: saving at time 10 a draft whose
`updatedAt` is 5 writes `updatedAt = 10` through the store but merges
the draft with its old `updatedAt = 5` into the local saved map — the
value merged into `savedMap` is not the written value. -/
theorem save_merges_stale_draft :
    (getKey (handleSave c5State c5Store 10).1.savedEvaluations ("r1")).map
        EvaluationResult.updatedAt = some 5
    ∧ (getKey (getEvaluations (handleSave c5State c5Store 10).2 ("T1")) ("r1")).map
        EvaluationResult.updatedAt = some 10 := by
  decide

/-- Claim C5 (amended): `save()` writes `{...draft, updatedAt: now}`
through the Persistence Store — an immediate `getEvaluations` for the
task returns a map containing the saved record's result with
`updatedAt` equal to (hence at least) the time of the call — and sets
`isSaved = true`; but the value merged into `savedMap` is the draft
itself, retaining the draft's previous `updatedAt`, not the written
value (other savedMap entries are untouched). -/
theorem session_save_spec (st : SessionState) (store : Store) (now : Nat)
    (draft : EvaluationResult) (h : st.currentResult = some draft) :
    getKey (getEvaluations (handleSave st store now).2 st.task.id) draft.recordId
      = some { draft with updatedAt := now }
    ∧ now ≤ ({ draft with updatedAt := now } : EvaluationResult).updatedAt
    ∧ getKey (handleSave st store now).1.savedEvaluations draft.recordId = some draft
    ∧ (∀ rid, rid ≠ draft.recordId →
        getKey (handleSave st store now).1.savedEvaluations rid
          = getKey st.savedEvaluations rid)
    ∧ (handleSave st store now).1.isSaved = true := by
  simp only [handleSave, h]
  refine ⟨?_, le_refl _, ?_, ?_, ?_⟩
  · rw [getEvaluations_saveEvaluation_self]
    exact getKey_setKey_self _ _ _
  · exact getKey_setKey_self _ _ _
  · intro rid hr
    exact getKey_setKey_ne _ _ _ _ hr
  · trivial

theorem session_save_spec_witness :
    getKey (getEvaluations (handleSave c5State c5Store 10).2 c5State.task.id) ("r1")
      = some { c5Draft with updatedAt := 10 }
    ∧ getKey (handleSave c5State c5Store 10).1.savedEvaluations ("zz")
      = getKey c5State.savedEvaluations ("zz")
    ∧ (handleSave c5State c5Store 10).1.isSaved = true := by
  have h := session_save_spec c5State c5Store 10 c5Draft rfl
  exact ⟨h.1, h.2.2.2.1 ("zz") (by decide), h.2.2.2.2⟩

/-! Resume-point lemmas. -/

theorem findIndexAbsent_eq_none (evals : EvaluationMap) (records : List TaskRecord)
    (h : ∀ r ∈ records, (getKey evals r.id).isSome) :
    findIndexAbsent evals records = none := by
  induction records with
  | nil => rfl
  | cons r rest ih =>
      have h1 : ¬ getKey evals r.id = none := by
        simpa [Option.isSome_iff_ne_none] using h r (List.mem_cons_self r rest)
      simp [findIndexAbsent, h1, ih fun r hr => h r (List.mem_cons_of_mem _ hr)]

theorem findIndexAbsent_eq_some (evals : EvaluationMap) (records : List TaskRecord)
    (i : Nat) (r : TaskRecord) (hget : records.get? i = some r)
    (habs : getKey evals r.id = none)
    (hbefore : ∀ j rj, j < i → records.get? j = some rj → (getKey evals rj.id).isSome) :
    findIndexAbsent evals records = some i := by
  induction records generalizing i with
  | nil => simp [List.get?] at hget
  | cons hd rest ih =>
      cases i with
      | zero =>
          simp only [List.get?, Option.some.injEq] at hget
          subst hget
          simp [findIndexAbsent, habs]
      | succ n =>
          have hhd : ¬ getKey evals hd.id = none := by
            simpa [Option.isSome_iff_ne_none] using
              hbefore 0 hd (Nat.succ_pos n) rfl
          have hrest : findIndexAbsent evals rest = some n :=
            ih n hget fun j rj hj hg => hbefore (j + 1) rj (Nat.succ_lt_succ hj) hg
          simp [findIndexAbsent, hhd, hrest]

/-- Claim C8: on loading a task, the session's starting index is the
index of the first record (in record order) whose id is absent from
the saved-evaluation map, and it is 0 when every record already has a
saved evaluation. -/
theorem initial_index_spec (records : List TaskRecord) (evals : EvaluationMap) :
    ((∀ r ∈ records, (getKey evals r.id).isSome) → initialIndex records evals = 0)
    ∧ (∀ i r, records.get? i = some r → getKey evals r.id = none →
        (∀ j rj, j < i → records.get? j = some rj → (getKey evals rj.id).isSome) →
        initialIndex records evals = i) := by
  constructor
  · intro h
    rw [initialIndex, findIndexAbsent_eq_none evals records h]
    rfl
  · intro i r hget habs hbefore
    rw [initialIndex, findIndexAbsent_eq_some evals records i r hget habs hbefore]
    rfl

/-- First session record fixture. -/
def wRecA : TaskRecord := { id := "a", data := [] }

/-- Second session record fixture. -/
def wRecB : TaskRecord := { id := "b", data := [] }

/-- Evaluations covering only record `a`. -/
def wEvalsA : EvaluationMap := [("a", wRes1)]

/-- Evaluations covering both records. -/
def wEvalsAB : EvaluationMap := [("a", wRes1), ("b", wRes1)]

theorem initial_index_spec_witness :
    initialIndex [wRecA, wRecB] wEvalsAB = 0
    ∧ initialIndex [wRecA, wRecB] wEvalsA = 1 := by
  refine ⟨(initial_index_spec [wRecA, wRecB] wEvalsAB).1 (by decide),
    (initial_index_spec [wRecA, wRecB] wEvalsA).2 1 wRecB rfl (by decide) ?_⟩
  intro j rj hj hget
  have hj0 : j = 0 := by omega
  subst hj0
  simp only [List.get?, Option.some.injEq] at hget
  subst hget
  decide

/-! ## Claims about progress -/

/-- Claim C9 counterexample: the workspace progress of a task with no
records (and an empty saved map) is not the number 0 — the source
divides by the record count with no guard, producing `NaN`, modelled
as `none`; the claimed value `0` is not produced. -/
theorem workspace_progress_empty_task :
    workspaceProgress 0 0 = none ∧ workspaceProgress 0 0 ≠ some 0 := by
  exact ⟨rfl, by decide⟩

/-- Claim C9 (amended): the Dashboard progress percent equals
`round(100 * completedCount / records.length)` and is 0 for a task
with no records; the workspace progress equals the same formula
whenever the task has at least one record, but for a task with no
records it is not a number (no zero-guard in the workspace). -/
theorem progress_percent_spec (completed total : Nat) (h : 0 < total) :
    dashboardPercent completed total = round ((100 * (completed : ℚ)) / (total : ℚ))
    ∧ dashboardPercent completed 0 = 0
    ∧ workspaceProgress completed total
        = some (round ((100 * (completed : ℚ)) / (total : ℚ))) := by
  have harg : ((completed : ℚ) / (total : ℚ)) * 100
      = (100 * (completed : ℚ)) / (total : ℚ) := by
    rw [div_mul_eq_mul_div, mul_comm]
  refine ⟨?_, ?_, ?_⟩
  · rw [dashboardPercent, if_pos h, harg]
  · simp [dashboardPercent]
  · rw [workspaceProgress, if_neg (Nat.pos_iff_ne_zero.mp h), harg]

theorem progress_percent_spec_witness :
    dashboardPercent 1 3 = 33 ∧ workspaceProgress 1 3 = some 33 := by
  have h := progress_percent_spec 1 3 (by decide)
  constructor
  · rw [h.1]
    norm_num [round_eq]
  · rw [h.2.2]
    norm_num [round_eq]

/-! ## Claims about task creation -/

/-- A dimension violating `min < max` (`min = max = 0`, as produced by
typing `0` into the Max Score input). -/
def badDim : Dimension :=
  { id := "d1", name := "Quality", description := "", min := 0, max := 0, step := 1/2 }

/-- Claim C1 counterexample: a Scoring-mode creation whose single
dimension has `min = max = 0` does not fail — `handleCreateTask`
checks only the title (and, in Comparison mode, the A/B mappings) —
and the task is written to the store. -/
theorem creation_succeeds_with_bad_bounds :
    ¬ (badDim.min < badDim.max)
    ∧ ((handleCreateTask ("T") ("") TaskMode.scoring [] [badDim] [] ("t9") 0
          { tasksSlot := Slot.value [], evalsSlot := Slot.value [] }).toOption.map
        fun p => (getTasks p.2).map Task.title) = some ["T"] := by
  constructor
  · decide
  · decide

/-- Claim C1 (amended): task creation performs no dimension-bound
validation: every Scoring-mode attempt whose trimmed title is
nonempty succeeds — whatever the dimensions, including ones with
`min ≥ max` — and the assembled task (carrying exactly the given
dimensions and records) is appended to the stored task list. -/
theorem scoring_creation_skips_dimension_bounds (title description : String)
    (fieldMappings : List FieldMapping) (dimensions : List Dimension)
    (rawRecords : List TaskRecord) (newId : String) (now : Nat) (store : Store)
    (h : trimChars title ≠ "") :
    ∃ t s', handleCreateTask title description TaskMode.scoring fieldMappings dimensions
        rawRecords newId now store = Except.ok (t, s')
      ∧ getTasks s' = getTasks store ++ [t]
      ∧ t.title = title
      ∧ t.dimensions = some dimensions
      ∧ t.records = rawRecords := by
  simp only [handleCreateTask, if_neg h]
  exact ⟨_, _, rfl, rfl, rfl, rfl, rfl⟩

theorem scoring_creation_skips_dimension_bounds_witness :
    ((handleCreateTask ("T") ("") TaskMode.scoring [] [badDim] [] ("t9") 0
        { tasksSlot := Slot.value [], evalsSlot := Slot.value [] }).toOption.map
      fun p => ((getTasks p.2).map Task.title, p.1.dimensions))
    = some (["T"], some [badDim]) := by
  obtain ⟨t, s', heq, hts, htitle, hdims, hrecs⟩ :=
    scoring_creation_skips_dimension_bounds ("T") ("") [] [badDim] [] ("t9") 0
      { tasksSlot := Slot.value [], evalsSlot := Slot.value [] } (by decide)
  rw [heq]
  show some ((getTasks s').map Task.title, t.dimensions) = some (["T"], some [badDim])
  rw [hts, hdims]
  simp [htitle, getTasks]

/-! ## Claims about import normalization -/

theorem normalizeFrom_length (fresh : Nat → String) (k : Nat)
    (items : List (List (String × JsVal))) :
    (normalizeFrom fresh k items).length = items.length := by
  induction items generalizing k with
  | nil => rfl
  | cons a rest ih => simp [normalizeFrom, ih]

theorem normalizeFrom_get? (fresh : Nat → String) (items : List (List (String × JsVal)))
    (k i : Nat) :
    (normalizeFrom fresh k items).get? i
      = (items.get? i).map fun item => { id := derivedId fresh (k + i) item, data := item } := by
  induction items generalizing k i with
  | nil => simp [normalizeFrom]
  | cons a rest ih =>
      cases i with
      | zero => rfl
      | succ n =>
          have harith : (k + 1) + n = k + (n + 1) := by omega
          calc (normalizeFrom fresh k (a :: rest)).get? (n + 1)
              = (normalizeFrom fresh (k + 1) rest).get? n := rfl
            _ = (rest.get? n).map
                  (fun item => { id := derivedId fresh ((k + 1) + n) item, data := item }) :=
                ih (k + 1) n
            _ = ((a :: rest).get? (n + 1)).map
                  (fun item => { id := derivedId fresh (k + (n + 1)) item, data := item }) := by
                rw [harith]
                rfl

/-- A deterministic supply of synthesized identifiers standing in for
`generateId`'s random draws. -/
def freshSupply (i : Nat) : String := "g" ++ toString i

/-- Claim C4 counterexample: importing two objects that share the id
value `1` yields two records with the same identifier `"1"` — record
identifiers are not unique for every valid imported array. -/
theorem import_duplicate_ids :
    ((normalizeRecords [[("id", JsVal.num 1)], [("id", JsVal.num 1)]] freshSupply).map
        TaskRecord.id) = ["1", "1"]
    ∧ ¬ (["1", "1"] : List String).Nodup := by
  constructor
  · decide
  · decide

/-- Claim C4 (amended): a valid imported array of length N yields
exactly N records; each record's identifier is the string form of the
payload's `id` property when present (and non-null), and a
synthesized identifier otherwise.  The identifiers are unique
provided the string forms of the present id values are pairwise
distinct, the synthesized supply is injective, and no synthesized
identifier collides with a present one — without these provisos
duplicates of the payload id produce duplicate record identifiers. -/
theorem import_records_spec (items : List (List (String × JsVal))) (fresh : Nat → String)
    (h1 : ∀ i j : Fin items.length, i ≠ j →
        ((items.get? i.val).bind presentId).isSome →
        ((items.get? j.val).bind presentId).isSome →
        (items.get? i.val).bind presentId ≠ (items.get? j.val).bind presentId)
    (h2 : ∀ i j : Fin items.length, fresh i.val = fresh j.val → i = j)
    (h3 : ∀ i j : Fin items.length,
        (items.get? j.val).bind presentId ≠ some (fresh i.val)) :
    (normalizeRecords items fresh).length = items.length
    ∧ (∀ i item, items.get? i = some item →
        (normalizeRecords items fresh).get? i
          = some { id := derivedId fresh i item, data := item })
    ∧ ((normalizeRecords items fresh).map TaskRecord.id).Nodup := by
  refine ⟨normalizeFrom_length fresh 0 items, ?_, ?_⟩
  · intro i item hget
    rw [normalizeRecords, normalizeFrom_get? fresh items 0 i, hget, Nat.zero_add]
    rfl
  · rw [List.nodup_iff_get?_ne_get?]
    intro i j hij hjlen
    have hlen : ((normalizeRecords items fresh).map TaskRecord.id).length
        = items.length := by
      rw [List.length_map, normalizeRecords, normalizeFrom_length]
    have hj : j < items.length := by rw [hlen] at hjlen; exact hjlen
    have hi : i < items.length := lt_trans hij hj
    obtain ⟨a, ha⟩ : ∃ a, items.get? i = some a :=
      ⟨items.get ⟨i, hi⟩, List.get?_eq_get hi⟩
    obtain ⟨b, hb⟩ : ∃ b, items.get? j = some b :=
      ⟨items.get ⟨j, hj⟩, List.get?_eq_get hj⟩
    have hmi : ((normalizeRecords items fresh).map TaskRecord.id).get? i
        = some (derivedId fresh i a) := by
      rw [List.get?_map, normalizeRecords, normalizeFrom_get? fresh items 0 i, ha,
        Nat.zero_add]
      rfl
    have hmj : ((normalizeRecords items fresh).map TaskRecord.id).get? j
        = some (derivedId fresh j b) := by
      rw [List.get?_map, normalizeRecords, normalizeFrom_get? fresh items 0 j, hb,
        Nat.zero_add]
      rfl
    rw [hmi, hmj]
    simp only [Ne, Option.some.injEq]
    intro heq
    have hne : i ≠ j := Nat.ne_of_lt hij
    have hbi : (items.get? i).bind presentId = presentId a := by rw [ha]; rfl
    have hbj : (items.get? j).bind presentId = presentId b := by rw [hb]; rfl
    rw [derivedId, derivedId] at heq
    have hfne : (⟨i, hi⟩ : Fin items.length) ≠ ⟨j, hj⟩ := Fin.ne_of_val_ne hne
    cases hpa : presentId a with
    | some sa =>
        cases hpb : presentId b with
        | some sb =>
            rw [hpa, hpb] at heq
            simp only [Option.getD_some] at heq
            exact h1 ⟨i, hi⟩ ⟨j, hj⟩ hfne (by rw [hbi, hpa]; rfl) (by rw [hbj, hpb]; rfl)
              (by rw [hbi, hbj, hpa, hpb, heq])
        | none =>
            rw [hpa, hpb] at heq
            simp only [Option.getD_some, Option.getD_none] at heq
            exact h3 ⟨j, hj⟩ ⟨i, hi⟩ (by rw [hbi, hpa, heq])
    | none =>
        cases hpb : presentId b with
        | some sb =>
            rw [hpa, hpb] at heq
            simp only [Option.getD_some, Option.getD_none] at heq
            exact h3 ⟨i, hi⟩ ⟨j, hj⟩ (by rw [hbj, hpb, ← heq])
        | none =>
            rw [hpa, hpb] at heq
            simp only [Option.getD_none] at heq
            exact hne (congrArg Fin.val (h2 ⟨i, hi⟩ ⟨j, hj⟩ heq))

theorem import_records_spec_witness :
    (normalizeRecords [[("id", JsVal.str "x")], [("p", JsVal.str "Q")]] freshSupply).length = 2
    ∧ ((normalizeRecords [[("id", JsVal.str "x")], [("p", JsVal.str "Q")]] freshSupply).map
        TaskRecord.id).Nodup := by
  have h := import_records_spec [[("id", JsVal.str "x")], [("p", JsVal.str "Q")]] freshSupply
    (by decide) (by decide) (by decide)
  exact ⟨h.1, h.2.2⟩

/-! ## Claims about the CSV export -/

/-- Claim C3 counterexample: the Scoring scenario's exported header
row reads `Record ID,...` — the first column label contains a space —
not the claimed `RecordID,...`. -/
theorem scenario_header_spelling :
    String.intercalate (",") (exportHeaders scenTask)
      = "Record ID,Context: Prompt,Target: Response,Score: Quality,Comments,Timestamp"
    ∧ String.intercalate (",") (exportHeaders scenTask)
      ≠ "RecordID,Context: Prompt,Target: Response,Score: Quality,Comments,Timestamp" := by
  constructor
  · decide
  · decide

/-- Claim C3 (amended): the Scoring scenario's export consists of
exactly the header row
`Record ID,Context: Prompt,Target: Response,Score: Quality,Comments,Timestamp`
(the first column label is `Record ID`, with a space) followed by one
data row whose score column contains `4` unquoted (the save in this
fixture happened at epoch millisecond 1000). -/
theorem scenario_export :
    exportRows scenTask scenEvals
      = [["Record ID", "Context: Prompt", "Target: Response", "Score: Quality",
          "Comments", "Timestamp"],
         ["1", "\"Q\"", "\"A\"", "4", "\"\"", "1970-01-01T00:00:01.000Z"]] := by
  decide

/-- Claim C2 counterexample: in the Scoring scenario's export the
RecordID cell of the data row is the raw record id `1`, not the
quoted `"1"` the claim demands; moreover `formatForCsv` renders a
`null`/`undefined` value as the bare empty string, not as the quoted
empty string demanded by the always-quote rule. -/
theorem record_id_cell_unquoted :
    (exportRow scenTask scenEvals scenRecord).get? 0 = some ("1")
    ∧ ("1" : String) ≠ specCellEncode (some (JsVal.str "1"))
    ∧ formatForCsv none = ""
    ∧ formatForCsv none ≠ specCellEncode none := by
  refine ⟨by decide, by decide, rfl, by decide⟩

/-- Claim C2 (amended): context, target and model value cells and the
comment cell go through `formatForCsv`, which agrees with the spec's
always-quote cell rule on every non-null value — text wrapped in
double quotes with embedded double quotes doubled — but renders
`null`/`undefined` as the bare, unquoted empty string; the RecordID
cell is the raw record id, score cells are the raw score text, the
Selection cell is one of the raw literal tokens
`Pending`/`left`/`right`/`tie`, and the Timestamp cell is the raw
timestamp text, all outside the quoting rule.  The positional
conjuncts identify every cell of a data row in both modes. -/
theorem export_cell_encoding (task : Task) (evals : EvaluationMap) (r : TaskRecord)
    (v : JsVal) (hv : v ≠ JsVal.null) :
    formatForCsv (some v) = specCellEncode (some v)
    ∧ formatForCsv none = ""
    ∧ formatForCsv (some JsVal.null) = ""
    ∧ (exportRow task evals r).get? 0 = some r.id
    ∧ (∀ i f, (contextFields task).get? i = some f →
        (exportRow task evals r).get? (1 + i)
          = some (formatForCsv (getKey r.data f.key)))
    ∧ (task.mode = TaskMode.scoring →
        (exportRow task evals r).get? (1 + (contextFields task).length)
            = some (formatForCsv (targetValue task r))
        ∧ (∀ i d, (task.dimensions.getD []).get? i = some d →
            (exportRow task evals r).get? (2 + (contextFields task).length + i)
              = some (scoreCell (getKey evals r.id) d))
        ∧ (exportRow task evals r).get?
              (2 + (contextFields task).length + (task.dimensions.getD []).length)
            = some (commentCell (getKey evals r.id))
        ∧ (exportRow task evals r).get?
              (3 + (contextFields task).length + (task.dimensions.getD []).length)
            = some (timestampCell (getKey evals r.id)))
    ∧ (task.mode = TaskMode.comparison →
        (exportRow task evals r).get? (1 + (contextFields task).length)
            = some (formatForCsv (modelValue task FieldRole.modelA r))
        ∧ (exportRow task evals r).get? (2 + (contextFields task).length)
            = some (formatForCsv (modelValue task FieldRole.modelB r))
        ∧ (exportRow task evals r).get? (3 + (contextFields task).length)
            = some (selectionCell (getKey evals r.id))
        ∧ (exportRow task evals r).get? (4 + (contextFields task).length)
            = some (commentCell (getKey evals r.id))
        ∧ (exportRow task evals r).get? (5 + (contextFields task).length)
            = some (timestampCell (getKey evals r.id)))
    ∧ (∀ res : Option EvaluationResult, commentCell res
        = "\"" ++ csvEscape ((res.map EvaluationResult.comment).getD "") ++ "\"")
    ∧ (∀ res : Option EvaluationResult, selectionCell res = "Pending"
        ∨ selectionCell res = "left" ∨ selectionCell res = "right"
        ∨ selectionCell res = "tie") := by
  have hmaplen : ((contextFields task).map
      fun f => formatForCsv (getKey r.data f.key)).length
      = (contextFields task).length := List.length_map _ _
  have htail : ∀ k, (exportRow task evals r).get? (1 + (contextFields task).length + k)
      = (modeCells task evals r
          ++ [commentCell (getKey evals r.id), timestampCell (getKey evals r.id)]).get? k := by
    intro k
    have h1 : 1 + (contextFields task).length + k
        = ((contextFields task).length + k) + 1 := by omega
    rw [h1]
    show (((contextFields task).map fun f => formatForCsv (getKey r.data f.key))
        ++ (modeCells task evals r
          ++ [commentCell (getKey evals r.id), timestampCell (getKey evals r.id)])).get?
        ((contextFields task).length + k)
      = (modeCells task evals r
          ++ [commentCell (getKey evals r.id), timestampCell (getKey evals r.id)]).get? k
    have hge : ((contextFields task).map
        fun f => formatForCsv (getKey r.data f.key)).length
        ≤ (contextFields task).length + k := by
      rw [hmaplen]
      omega
    rw [List.get?_append_right hge, hmaplen]
    congr 1
    omega
  refine ⟨?_, rfl, rfl, rfl, ?_, ?_, ?_, ?_, ?_⟩
  · cases v with
    | null => exact absurd rfl hv
    | bool b => cases b <;> rfl
    | num n => rfl
    | str s => rfl
    | arr xs => rfl
    | obj fs => rfl
  · intro i f hget
    obtain ⟨hlt, -⟩ := List.get?_eq_some.1 hget
    have hmaplen2 : i < ((contextFields task).map
        fun f => formatForCsv (getKey r.data f.key)).length := by
      rw [List.length_map]
      exact hlt
    rw [Nat.add_comm 1 i]
    show (((contextFields task).map fun f => formatForCsv (getKey r.data f.key))
        ++ (modeCells task evals r
          ++ [commentCell (getKey evals r.id), timestampCell (getKey evals r.id)])).get? i
      = some (formatForCsv (getKey r.data f.key))
    rw [List.get?_append hmaplen2, List.get?_map, hget]
    rfl
  · intro hmode
    have hC : modeCells task evals r
        = formatForCsv (targetValue task r)
          :: (task.dimensions.getD []).map (scoreCell (getKey evals r.id)) := by
      rw [modeCells, hmode]
    have hSlen : ((task.dimensions.getD []).map (scoreCell (getKey evals r.id))).length
        = (task.dimensions.getD []).length := List.length_map _ _
    refine ⟨?_, ?_, ?_, ?_⟩
    · exact (htail 0).trans (by rw [hC]; rfl)
    · intro i d hget
      obtain ⟨hlt, -⟩ := List.get?_eq_some.1 hget
      have hidx : 2 + (contextFields task).length + i
          = 1 + (contextFields task).length + (1 + i) := by omega
      rw [hidx, htail (1 + i), hC, Nat.add_comm 1 i]
      show ((task.dimensions.getD []).map (scoreCell (getKey evals r.id))
          ++ [commentCell (getKey evals r.id), timestampCell (getKey evals r.id)]).get? i
        = some (scoreCell (getKey evals r.id) d)
      have hlt2 : i < ((task.dimensions.getD []).map
          (scoreCell (getKey evals r.id))).length := by
        rw [hSlen]
        exact hlt
      rw [List.get?_append hlt2, List.get?_map, hget]
      rfl
    · have hidx : 2 + (contextFields task).length + (task.dimensions.getD []).length
          = 1 + (contextFields task).length + (1 + (task.dimensions.getD []).length) := by
        omega
      rw [hidx, htail (1 + (task.dimensions.getD []).length), hC,
        Nat.add_comm 1 ((task.dimensions.getD []).length)]
      show ((task.dimensions.getD []).map (scoreCell (getKey evals r.id))
          ++ [commentCell (getKey evals r.id), timestampCell (getKey evals r.id)]).get?
          ((task.dimensions.getD []).length)
        = some (commentCell (getKey evals r.id))
      rw [List.get?_append_right (le_of_eq hSlen), hSlen, Nat.sub_self]
      rfl
    · have hidx : 3 + (contextFields task).length + (task.dimensions.getD []).length
          = 1 + (contextFields task).length + (1 + ((task.dimensions.getD []).length + 1)) := by
        omega
      rw [hidx, htail (1 + ((task.dimensions.getD []).length + 1)), hC,
        Nat.add_comm 1 ((task.dimensions.getD []).length + 1)]
      show ((task.dimensions.getD []).map (scoreCell (getKey evals r.id))
          ++ [commentCell (getKey evals r.id), timestampCell (getKey evals r.id)]).get?
          ((task.dimensions.getD []).length + 1)
        = some (timestampCell (getKey evals r.id))
      have hge2 : ((task.dimensions.getD []).map (scoreCell (getKey evals r.id))).length
          ≤ (task.dimensions.getD []).length + 1 := by
        rw [hSlen]
        omega
      rw [List.get?_append_right hge2, hSlen]
      have hone : (task.dimensions.getD []).length + 1 - (task.dimensions.getD []).length
          = 1 := by omega
      rw [hone]
      rfl
  · intro hmode
    have hC : modeCells task evals r
        = [formatForCsv (modelValue task FieldRole.modelA r),
           formatForCsv (modelValue task FieldRole.modelB r),
           selectionCell (getKey evals r.id)] := by
      rw [modeCells, hmode]
    have h2 : 2 + (contextFields task).length
        = 1 + (contextFields task).length + 1 := by omega
    have h3 : 3 + (contextFields task).length
        = 1 + (contextFields task).length + 2 := by omega
    have h4 : 4 + (contextFields task).length
        = 1 + (contextFields task).length + 3 := by omega
    have h5 : 5 + (contextFields task).length
        = 1 + (contextFields task).length + 4 := by omega
    refine ⟨(htail 0).trans (by rw [hC]; rfl), ?_, ?_, ?_, ?_⟩
    · rw [h2, htail 1, hC]
      rfl
    · rw [h3, htail 2, hC]
      rfl
    · rw [h4, htail 3, hC]
      rfl
    · rw [h5, htail 4, hC]
      rfl
  · intro res
    cases res with
    | none => rfl
    | some r0 => rfl
  · intro res
    cases res with
    | none => exact Or.inl rfl
    | some r0 =>
        cases hcs : r0.comparisonSelection with
        | none => simp only [selectionCell, hcs]; decide
        | some c =>
            cases c with
            | left => simp only [selectionCell, hcs]; decide
            | right => simp only [selectionCell, hcs]; decide
            | tie => simp only [selectionCell, hcs]; decide

/-! Comparison-mode export fixture used by the C2 witness. -/

/-- The single imported record of the comparison fixture. -/
def compRecord : TaskRecord :=
  { id := "2"
    data := [("id", JsVal.str "2"), ("prompt", JsVal.str "P"),
             ("model_a", JsVal.str "A1"), ("model_b", JsVal.str "B1")] }

/-- A Comparison-mode task over that record. -/
def compTask : Task :=
  { id := "t2"
    title := "Comp"
    description := ""
    mode := TaskMode.comparison
    createdAt := 0
    fields := [{ key := "prompt", role := FieldRole.context, label := "Prompt" },
               { key := "model_a", role := FieldRole.modelA, label := "Model a" },
               { key := "model_b", role := FieldRole.modelB, label := "Model b" }]
    dimensions := none
    records := [compRecord] }

/-- A saved tie judgment for record `2`. -/
def compResult : EvaluationResult :=
  { taskId := "t2", recordId := "2", scores := none,
    comparisonSelection := some ComparisonChoice.tie, comment := "c", updatedAt := 2000 }

/-- The comparison fixture's evaluation map. -/
def compEvals : EvaluationMap := [("2", compResult)]

theorem export_cell_encoding_witness :
    formatForCsv (some (JsVal.str "a\"b")) = "\"a\"\"b\""
    ∧ (exportRow scenTask scenEvals scenRecord).get? 0 = some ("1")
    ∧ (exportRow scenTask scenEvals scenRecord).get? 1
        = some (formatForCsv (getKey scenRecord.data ("prompt")))
    ∧ (exportRow scenTask scenEvals scenRecord).get? 3
        = some (scoreCell (getKey scenEvals ("1")) qualityDim)
    ∧ (exportRow scenTask scenEvals scenRecord).get? 4
        = some (commentCell (getKey scenEvals ("1")))
    ∧ (exportRow compTask compEvals compRecord).get? 2
        = some (formatForCsv (modelValue compTask FieldRole.modelA compRecord))
    ∧ (exportRow compTask compEvals compRecord).get? 4
        = some (selectionCell (getKey compEvals ("2")))
    ∧ (exportRow compTask compEvals compRecord).get? 6
        = some (timestampCell (getKey compEvals ("2"))) := by
  have hs := export_cell_encoding scenTask scenEvals scenRecord (JsVal.str "a\"b")
    (by simp)
  have hc := export_cell_encoding compTask compEvals compRecord (JsVal.str "x")
    (by simp)
  refine ⟨hs.1.trans (by decide), hs.2.2.2.1, ?_, ?_, ?_, ?_, ?_, ?_⟩
  · exact hs.2.2.2.2.1 0 { key := "prompt", role := FieldRole.context, label := "Prompt" } rfl
  · exact (hs.2.2.2.2.2.1 rfl).2.1 0 qualityDim rfl
  · exact (hs.2.2.2.2.2.1 rfl).2.2.1
  · exact (hc.2.2.2.2.2.2.1 rfl).1
  · exact (hc.2.2.2.2.2.2.1 rfl).2.2.1
  · exact (hc.2.2.2.2.2.2.1 rfl).2.2.2.2

end EvalMaster
